import Mathlib

/-!
Shallow embedding of the discord-downloader archive core (src/main.py):
the metadata frame codec, the batch transcript encoder, the commit
protocol of the download session loop, and the signal-handling logic.

Files are modelled as lists of byte values (`List Nat`, each entry < 256
by construction of the encoders).  Fallible file operations return
`Except MetaError`; Python `ValueError` raised by the format checks is
`MetaError.formatError` and a `struct.error` (short read / out-of-range
pack value) is `MetaError.structError`.  The zstd compressor is an
external library and is kept abstract as a `compress` parameter.
-/

/-- Little-endian byte encoding of `n` on `k` bytes, as Python
`struct.pack` with a `<` format produces (least significant byte first). -/
def leBytes : Nat → Nat → List Nat
  | 0, _ => []
  | k + 1, n => n % 256 :: leBytes k (n / 256)

/-- Little-endian decoding of a byte list, as Python `struct.unpack`
with a `<` format performs. -/
def leToNat : List Nat → Nat
  | [] => 0
  | b :: bs => b + 256 * leToNat bs

/-- Big-endian byte encoding on `k` bytes, as `struct.pack` with a `>`
format produces (most significant byte first). -/
def beBytes (k n : Nat) : List Nat := (leBytes k n).reverse

/-- The 4-byte zstd skippable-frame magic constant `b'\x50\x2A\x4D\x18'`
(src/main.py line 44). -/
def MAGIC_ZSTD_HEADER : List Nat := [0x50, 0x2A, 0x4D, 0x18]

/-- `METADATA_SIZE = 3 * 8` (src/main.py line 43). -/
def METADATA_SIZE : Nat := 3 * 8

/-- `struct.pack('<3Q', a, b, c)`: three little-endian u64 fields. -/
def pack3LE (a b c : Nat) : List Nat := leBytes 8 a ++ leBytes 8 b ++ leBytes 8 c

/-- `struct.pack('>3Q', a, b, c)`: three big-endian u64 fields. -/
def pack3BE (a b c : Nat) : List Nat := beBytes 8 a ++ beBytes 8 b ++ beBytes 8 c

/-- `struct.unpack('<3Q', frame)`: decode three little-endian u64 fields. -/
def unpack3LE (frame : List Nat) : Nat × Nat × Nat :=
  (leToNat (frame.take 8), leToNat ((frame.drop 8).take 8),
   leToNat ((frame.drop 16).take 8))

/-- Errors of the metadata file operations: `formatError` models the
`ValueError`s raised by the header checks, `structError` models Python
`struct.error` (short read for an exact-size unpack, or a pack value
outside the u64 range). -/
inductive MetaError where
  | formatError (msg : String)
  | structError
deriving DecidableEq

/-- `read_metadata` (src/main.py lines 47-64) on a file given as a byte
list: check the 4-byte magic, check the little-endian u32 frame length
against `METADATA_SIZE`, then unpack three little-endian u64 counters
from the 24-byte frame. -/
def read_metadata (file : List Nat) : Except MetaError (Nat × Nat × Nat) :=
  let magic_header := file.take 4
  if magic_header ≠ MAGIC_ZSTD_HEADER then
    .error (.formatError "Not a valid skippable frame format.")
  else
    let lenBytes := (file.drop 4).take 4
    if lenBytes.length ≠ 4 then .error .structError
    else if leToNat lenBytes ≠ METADATA_SIZE then
      .error (.formatError "Invalid metadata size")
    else
      let frame_data := (file.drop 8).take METADATA_SIZE
      if frame_data.length ≠ METADATA_SIZE then .error .structError
      else .ok (unpack3LE frame_data)

/-- `overwrite_metadata` (src/main.py lines 67-83): same header
validation as `read_metadata`, then seek to offset 8 and overwrite the
24-byte payload with `struct.pack('<3Q', *new_data)` in place.  The
in-place write of an `r+b` file at offset 8 yields
`take 8 file ++ payload ++ drop 32 file`. -/
def overwrite_metadata (file : List Nat) (new_data : Nat × Nat × Nat) :
    Except MetaError (List Nat) :=
  let magic_header := file.take 4
  if magic_header ≠ MAGIC_ZSTD_HEADER then
    .error (.formatError "Not a valid skippable frame format.")
  else
    let lenBytes := (file.drop 4).take 4
    if lenBytes.length ≠ 4 then .error .structError
    else if leToNat lenBytes ≠ METADATA_SIZE then
      .error (.formatError "Invalid metadata size")
    else if new_data.1 < 2 ^ 64 ∧ new_data.2.1 < 2 ^ 64 ∧ new_data.2.2 < 2 ^ 64 then
      .ok (file.take 8 ++ pack3LE new_data.1 new_data.2.1 new_data.2.2 ++ file.drop 32)
    else .error .structError

/-- The file content written by `initialize_metadata` (src/main.py lines
86-97): magic, little-endian u32 length, then `struct.pack('>3Q', 0, 0, 0)`
(big-endian, unlike the little-endian reads/overwrites). -/
def init_metadata : List Nat :=
  MAGIC_ZSTD_HEADER ++ leBytes 4 METADATA_SIZE ++ pack3BE 0 0 0

/-- `initialize_metadata` at the filesystem level: `open(file_path, 'wb')`
truncates any existing file and writes the fresh frame regardless of
whether the path already held content. -/
def init_metadata_on (existing : Option (List Nat)) : List Nat :=
  match existing with
  | none => init_metadata
  | some _ => init_metadata

section BasicLemmas

theorem length_leBytes (k n : Nat) : (leBytes k n).length = k := by
  induction k generalizing n with
  | zero => rfl
  | succ k ih => simp [leBytes, ih]

theorem leToNat_leBytes (k n : Nat) : leToNat (leBytes k n) = n % 256 ^ k := by
  induction k generalizing n with
  | zero => simp [leBytes, leToNat, Nat.mod_one]
  | succ k ih =>
    simp only [leBytes, leToNat, ih]
    rw [pow_succ, mul_comm (256 ^ k) 256, Nat.mod_mul]

theorem leToNat_leBytes_of_lt {k n : Nat} (h : n < 256 ^ k) :
    leToNat (leBytes k n) = n := by
  rw [leToNat_leBytes, Nat.mod_eq_of_lt h]

end BasicLemmas

theorem length_pack3LE (a b c : Nat) : (pack3LE a b c).length = 24 := by
  simp [pack3LE, length_leBytes]

theorem unpack3LE_pack3LE {a b c : Nat} (ha : a < 2 ^ 64) (hb : b < 2 ^ 64)
    (hc : c < 2 ^ 64) : unpack3LE (pack3LE a b c) = (a, b, c) := by
  have h8 : ((256:Nat)) ^ 8 = 2 ^ 64 := by norm_num
  have hA : (leBytes 8 a).length = 8 := length_leBytes 8 a
  have hB : (leBytes 8 b).length = 8 := length_leBytes 8 b
  have hC : (leBytes 8 c).length = 8 := length_leBytes 8 c
  have h1 : (pack3LE a b c).take 8 = leBytes 8 a := by
    rw [pack3LE, List.append_assoc, List.take_left' hA]
  have h2 : (pack3LE a b c).drop 8 = leBytes 8 b ++ leBytes 8 c := by
    rw [pack3LE, List.append_assoc, List.drop_left' hA]
  have h3 : ((pack3LE a b c).drop 8).take 8 = leBytes 8 b := by
    rw [h2, List.take_left' hB]
  have h4 : (pack3LE a b c).drop 16 = leBytes 8 c := by
    rw [pack3LE, List.append_assoc]
    have : (leBytes 8 a ++ leBytes 8 b).length = 16 := by
      rw [List.length_append, hA, hB]
    rw [← List.append_assoc, List.drop_left' this]
  have h5 : ((pack3LE a b c).drop 16).take 8 = leBytes 8 c := by
    rw [h4, List.take_of_length_le (le_of_eq hC)]
  rw [unpack3LE, h1, h3, h5,
    leToNat_leBytes_of_lt (h8 ▸ ha), leToNat_leBytes_of_lt (h8 ▸ hb),
    leToNat_leBytes_of_lt (h8 ▸ hc)]

/-- The header validation shared by `read_metadata` and
`overwrite_metadata`: correct magic bytes and a little-endian length
field decoding to 24, which requires at least 8 bytes of file. -/
def ValidHeader (file : List Nat) : Prop :=
  file.take 4 = MAGIC_ZSTD_HEADER ∧ 8 ≤ file.length ∧
    leToNat ((file.drop 4).take 4) = METADATA_SIZE

instance (file : List Nat) : Decidable (ValidHeader file) := by
  unfold ValidHeader; infer_instance

theorem overwrite_metadata_of_valid {file : List Nat} (hv : ValidHeader file)
    {a b c : Nat} (ha : a < 2 ^ 64) (hb : b < 2 ^ 64) (hc : c < 2 ^ 64) :
    overwrite_metadata file (a, b, c) =
      .ok (file.take 8 ++ pack3LE a b c ++ file.drop 32) := by
  obtain ⟨hm, hlen, hfl⟩ := hv
  have hlb : ((file.drop 4).take 4).length = 4 := by
    rw [List.length_take, List.length_drop]
    omega
  simp only [overwrite_metadata, hm, hlb, hfl]
  simp only [ne_eq, not_true_eq_false, if_false, reduceIte]
  rw [if_pos ⟨ha, hb, hc⟩]

theorem read_metadata_overwritten {file : List Nat} (hv : ValidHeader file)
    {a b c : Nat} (ha : a < 2 ^ 64) (hb : b < 2 ^ 64) (hc : c < 2 ^ 64) :
    read_metadata (file.take 8 ++ pack3LE a b c ++ file.drop 32) = .ok (a, b, c) := by
  obtain ⟨hm, hlen, hfl⟩ := hv
  have hA : (file.take 8).length = 8 := by rw [List.length_take]; omega
  have hmagic : (file.take 8 ++ pack3LE a b c ++ file.drop 32).take 4
      = MAGIC_ZSTD_HEADER := by
    rw [List.append_assoc, List.take_append_eq_append_take, hA]
    have h48 : (4:Nat) - 8 = 0 := by norm_num
    have hmin : (4:Nat) ⊓ 8 = 4 := by norm_num
    rw [h48, List.take_zero, List.append_nil, List.take_take, hmin, hm]
  have hlb4 : (file.take 8).drop 4 = (file.drop 4).take 4 := by
    rw [List.drop_take]
  have hdrop4 : (file.take 8 ++ pack3LE a b c ++ file.drop 32).drop 4
      = (file.drop 4).take 4 ++ (pack3LE a b c ++ file.drop 32) := by
    rw [List.append_assoc, List.drop_append_eq_append_drop, hA]
    have h48 : (4:Nat) - 8 = 0 := by norm_num
    rw [h48, List.drop_zero, hlb4]
  have hlen4 : ((file.drop 4).take 4).length = 4 := by
    rw [List.length_take, List.length_drop]; omega
  have hlenBytes : ((file.take 8 ++ pack3LE a b c ++ file.drop 32).drop 4).take 4
      = (file.drop 4).take 4 := by
    rw [hdrop4, List.take_left' hlen4]
  have hdrop8 : (file.take 8 ++ pack3LE a b c ++ file.drop 32).drop 8
      = pack3LE a b c ++ file.drop 32 := by
    rw [List.append_assoc, List.drop_left' hA]
  have hplen : (pack3LE a b c).length = METADATA_SIZE := by
    rw [length_pack3LE]; rfl
  have hframe : ((file.take 8 ++ pack3LE a b c ++ file.drop 32).drop 8).take METADATA_SIZE
      = pack3LE a b c := by
    rw [hdrop8, List.take_left' hplen]
  simp only [read_metadata, hmagic, hlenBytes, hlen4, hfl, hframe, hplen,
    ne_eq, not_true_eq_false, if_false, reduceIte]
  rw [unpack3LE_pack3LE ha hb hc]

/-- A fetched chat message as the session consumes it: snowflake id,
author display name, and body text (`message.content`). -/
structure Message where
  id : Nat
  author : String
  content : String
deriving DecidableEq

/-- One transcript line, the f-string of src/main.py line 173:
`"\0<" + author display name + ">\0" + content + "\n"`. -/
def transcriptLine (m : Message) : String :=
  "\x00<" ++ m.author ++ ">\x00" ++ m.content ++ "\n"

/-- `formatted_log` accumulation of src/main.py lines 169-173: start from
the empty string and append one line per message whose `content` has
nonzero length. -/
def formatted_log (messages : List Message) : String :=
  messages.foldl
    (fun log m => if m.content.length ≠ 0 then log ++ transcriptLine m else log) ""

/-- UTF-8 encoding of a single code point, as `str.encode('utf-8')`
performs per character. -/
def utf8Char (c : Char) : List Nat :=
  let n := c.toNat
  if n < 128 then [n]
  else if n < 2048 then [192 + n / 64, 128 + n % 64]
  else if n < 65536 then [224 + n / 4096, 128 + n / 64 % 64, 128 + n % 64]
  else [240 + n / 262144, 128 + n / 4096 % 64, 128 + n / 64 % 64, 128 + n % 64]

/-- UTF-8 encoding of a character list. -/
def utf8List : List Char → List Nat
  | [] => []
  | c :: cs => utf8Char c ++ utf8List cs

/-- `text.encode('utf-8')` on a whole string. -/
def utf8Bytes (s : String) : List Nat := utf8List s.data

/-- `append_batch` (src/main.py lines 100-113): compress the UTF-8
encoding of the transcript with the external zstd compressor and append
the result to the file opened in `ab` mode. -/
def append_batch (compress : List Nat → List Nat) (file : List Nat)
    (text : String) : List Nat :=
  file ++ compress (utf8Bytes text)

/-- `messages[-1].id` for a batch known to be nonempty in the code path
(the loop breaks before reaching it when the batch is empty); on `[]` it
defaults to 0. -/
def lastId (messages : List Message) : Nat :=
  match messages.getLast? with
  | some m => m.id
  | none => 0

/-- The counter update of one commit (src/main.py lines 176-178):
`last_read_message = messages[-1].id`,
`total_messages_read += len(messages)`,
`uncompressed_size += len(formatted_log)` (Python `len` of a `str`, i.e.
the number of characters). -/
def commitUpdate (c : Nat × Nat × Nat) (messages : List Message) :
    Nat × Nat × Nat :=
  (lastId messages, c.2.1 + messages.length,
   c.2.2 + (formatted_log messages).length)

/-- A primitive file operation performed on the archive during the
session loop, in program order. -/
inductive FileOp where
  | overwriteMeta (last count bytes : Nat)
  | appendChunk (data : List Nat)
deriving DecidableEq

/-- The mutable state of the `on_ready` download loop (src/main.py lines
150-196): archive file content, the `last_read_message` cursor (`none`
plays the role of Python `None`), the two running totals, and the
`shutdown_event` flag. -/
structure LoopState where
  file : List Nat
  last_read_message : Option Nat
  total_messages_read : Nat
  uncompressed_size : Nat
  shutdown_requested : Bool
deriving DecidableEq

/-- How a session loop run ends: `finished` is a `break` out of the loop
(empty or short batch), `shutdown` is the `sys.exit(0)` taken when a
deferred shutdown is observed after a commit, `fatal` is an uncaught
metadata exception, and `fuelOut` marks exhaustion of the structural
fuel. -/
inductive SessionResult where
  | finished (s : LoopState)
  | shutdown (s : LoopState)
  | fatal (s : LoopState)
  | fuelOut (s : LoopState)
deriving DecidableEq

/-- The `while True` download loop of src/main.py lines 158-196, with an
explicit fuel to make the recursion structural.  `fetchFn cursor limit`
models `channel.history(limit=args.batch, after=after, oldest_first=True)`.
Returns the final outcome together with the trace of file operations
performed, in order. -/
def sessionLoop (compress : List Nat → List Nat)
    (fetchFn : Option Nat → Nat → List Message) (batchLimit : Nat) :
    Nat → LoopState → SessionResult × List FileOp
  | 0, s => (.fuelOut s, [])
  | fuel + 1, s =>
    let messages := fetchFn s.last_read_message batchLimit
    if messages = [] then (.finished s, [])
    else
      let log := formatted_log messages
      let last' := lastId messages
      let count' := s.total_messages_read + messages.length
      let size' := s.uncompressed_size + log.length
      match overwrite_metadata s.file (last', count', size') with
      | .error _ => (.fatal s, [])
      | .ok f1 =>
        let chunk := compress (utf8Bytes log)
        let s' : LoopState :=
          { file := f1 ++ chunk, last_read_message := some last',
            total_messages_read := count', uncompressed_size := size',
            shutdown_requested := s.shutdown_requested }
        let ops := [FileOp.overwriteMeta last' count' size', FileOp.appendChunk chunk]
        if s'.shutdown_requested then (.shutdown s', ops)
        else if messages.length < batchLimit then (.finished s', ops)
        else
          let rest := sessionLoop compress fetchFn batchLimit fuel s'
          (rest.1, ops ++ rest.2)

/-- Loading the session state from the archive (src/main.py lines
150-153): read the metadata counters and treat a stored
`last_read_message` of 0 as `None`. -/
def loadState (file : List Nat) : Except MetaError LoopState :=
  match read_metadata file with
  | .error e => .error e
  | .ok (l, c, b) =>
    .ok { file := file,
          last_read_message := if l = 0 then none else some l,
          total_messages_read := c,
          uncompressed_size := b,
          shutdown_requested := false }

/-- Process state for the signal-handling analysis of one commit: the
archive file, the process-wide `in_critical_section` flag, the
`shutdown_event` flag, and whether (and with which code) the process has
exited. -/
structure ProcState where
  file : List Nat
  in_critical_section : Bool
  shutdown_event : Bool
  exited : Option Nat
deriving DecidableEq

/-- `handle_signal` (src/main.py lines 24-30): inside the critical
section it only sets `shutdown_event`; outside it the process exits with
status 0 at once.  A signal delivered to an already-exited process does
nothing. -/
def handle_signal (s : ProcState) : ProcState :=
  if s.exited.isSome then s
  else if s.in_critical_section then { s with shutdown_event := true }
  else { s with exited := some 0 }

/-- Run one atomic step unless the process has already exited. -/
def stepRun (s : ProcState) (f : ProcState → ProcState) : ProcState :=
  if s.exited.isSome then s else f s

/-- The atomic steps surrounding one commit (src/main.py lines 180-190):
set `in_critical_section`, overwrite the metadata frame (a failure
raises and aborts the session, modelled as a nonzero exit), append the
compressed chunk, clear `in_critical_section`, and check
`shutdown_event`, exiting with status 0 when it is set. -/
def commit_steps (new_data : Nat × Nat × Nat) (chunk : List Nat) :
    List (ProcState → ProcState) :=
  [fun s => { s with in_critical_section := true },
   fun s => match overwrite_metadata s.file new_data with
            | .ok f => { s with file := f }
            | .error _ => { s with exited := some 1 },
   fun s => { s with file := s.file ++ chunk },
   fun s => { s with in_critical_section := false },
   fun s => if s.shutdown_event then { s with exited := some 0 } else s]

/-- Run the commit steps with a signal delivered after the first `k`
atomic steps. -/
def run_commit_sig (new_data : Nat × Nat × Nat) (chunk : List Nat)
    (k : Nat) (s : ProcState) : ProcState :=
  ((commit_steps new_data chunk).drop k).foldl stepRun
    (handle_signal (((commit_steps new_data chunk).take k).foldl stepRun s))

/-- The `in_critical_section` flag as the signal handler would observe it
after the first `k` atomic steps of the commit. -/
def criticalAt (new_data : Nat × Nat × Nat) (chunk : List Nat)
    (k : Nat) (s : ProcState) : Bool :=
  (((commit_steps new_data chunk).take k).foldl stepRun s).in_critical_section

/-- C2: for every triple of u64 counter values, including 0 and 2^64 - 1,
and every archive file whose header passes validation, overwriting the
metadata with that triple and then reading the same file returns exactly
the triple that was written. -/
theorem c2_overwrite_read_roundtrip {file : List Nat} (hv : ValidHeader file)
    {a b c : Nat} (ha : a < 2 ^ 64) (hb : b < 2 ^ 64) (hc : c < 2 ^ 64) :
    ∃ f', overwrite_metadata file (a, b, c) = .ok f' ∧
      read_metadata f' = .ok (a, b, c) :=
  ⟨file.take 8 ++ pack3LE a b c ++ file.drop 32,
   overwrite_metadata_of_valid hv ha hb hc,
   read_metadata_overwritten hv ha hb hc⟩

/-- Witness for C2 at a freshly written archive and the extreme counter
values 0 and 2^64 - 1. -/
theorem c2_witness :
    ValidHeader init_metadata ∧ (0:Nat) < 2 ^ 64 ∧ 2 ^ 64 - 1 < 2 ^ 64 ∧
      (7:Nat) < 2 ^ 64 ∧
      ∃ f', overwrite_metadata init_metadata (0, 2 ^ 64 - 1, 7) = .ok f' ∧
        read_metadata f' = .ok (0, 2 ^ 64 - 1, 7) :=
  ⟨by decide, by norm_num, by norm_num, by norm_num,
   c2_overwrite_read_roundtrip (by decide) (by norm_num) (by norm_num) (by norm_num)⟩

/-- C7 counterexample: `initialize` called on an existing path does not
fail with `AlreadyExists` leaving the file unmodified; `open(path, 'wb')`
truncates the existing content (here the one-byte file `[9]`) and writes
the fresh frame over it. -/
theorem c7_counterexample :
    init_metadata_on (some [9]) = init_metadata ∧ init_metadata ≠ [9] := by
  constructor
  · rfl
  · decide

/-- C7 amended: `initialize(path)` writes a fresh 32-byte file of the
magic constant, the length field 24, and three all-zero u64 counters
(24 zero bytes); when the path already exists it does not fail but
truncates the old content and writes the same fresh frame, and a read of
the result returns (0, 0, 0). -/
theorem c7_amended (existing : Option (List Nat)) :
    init_metadata_on existing =
      MAGIC_ZSTD_HEADER ++ leBytes 4 METADATA_SIZE ++ List.replicate 24 0 ∧
    read_metadata (init_metadata_on existing) = .ok (0, 0, 0) := by
  have h1 : init_metadata =
      MAGIC_ZSTD_HEADER ++ leBytes 4 METADATA_SIZE ++ List.replicate 24 0 := by
    decide
  have h2 : read_metadata init_metadata = .ok (0, 0, 0) := by rfl
  cases existing <;> exact ⟨h1, h2⟩

/-- C8 counterexample: the counter encoding used by `initialize`
(`struct.pack('>3Q', ...)`, big-endian) is not the byte order that
`read` decodes and `overwrite` encodes (`'<3Q'`, little-endian): at the
counter triple (1, 0, 0) the two encodings differ, and the little-endian
decode of the big-endian encoding is not (1, 0, 0). -/
theorem c8_counterexample :
    pack3BE 1 0 0 ≠ pack3LE 1 0 0 ∧ unpack3LE (pack3BE 1 0 0) ≠ (1, 0, 0) := by
  decide

/-- C8 amended: `initialize` packs its counters big-endian while `read`
and `overwrite` use little-endian, but since the initialized counters
are all zero the payload bytes coincide with the little-endian encoding
of (0, 0, 0), so a read of a freshly initialized archive returns
(0, 0, 0). -/
theorem c8_amended :
    pack3BE 0 0 0 = pack3LE 0 0 0 ∧
    read_metadata init_metadata = .ok (0, 0, 0) :=
  ⟨by decide, by rfl⟩

/-- C9 counterexample: the truncated 8-byte file consisting of just the
magic constant and the length field passes `overwrite`'s validation, yet
overwriting it changes the file's length from 8 to 32 bytes, contrary to
the claim that `overwrite` never changes the length of any file its
validation accepts, truncated ones included. -/
theorem c9_counterexample :
    overwrite_metadata (MAGIC_ZSTD_HEADER ++ leBytes 4 METADATA_SIZE) (1, 2, 3) =
      .ok ((MAGIC_ZSTD_HEADER ++ leBytes 4 METADATA_SIZE) ++ pack3LE 1 2 3 ++ []) ∧
    (MAGIC_ZSTD_HEADER ++ leBytes 4 METADATA_SIZE).length = 8 ∧
    ((MAGIC_ZSTD_HEADER ++ leBytes 4 METADATA_SIZE) ++ pack3LE 1 2 3 ++ []).length = 32 := by
  refine ⟨?_, by decide, by decide⟩
  rfl

/-- C9 amended: `overwrite(path, last, count, bytes)` raises
`FormatError` exactly when the first four bytes differ from the magic
constant, or the file has at least 8 bytes and its declared frame length
is not 24 (a file with the right magic but fewer than 8 bytes raises a
struct error instead); on success it writes the 24 payload bytes at
offsets 8 through 31, leaves the magic, the length field and every byte
of the batch region from offset 32 on unchanged, and the resulting
length is `max original 32`: unchanged for any file of at least 32
bytes, and extended to exactly 32 bytes for a shorter accepted file. -/
theorem c9_amended (file : List Nat) (a b c : Nat)
    (ha : a < 2 ^ 64) (hb : b < 2 ^ 64) (hc : c < 2 ^ 64) :
    ((∃ msg, overwrite_metadata file (a, b, c) = .error (.formatError msg)) ↔
      (file.take 4 ≠ MAGIC_ZSTD_HEADER ∨
        (8 ≤ file.length ∧ leToNat ((file.drop 4).take 4) ≠ METADATA_SIZE))) ∧
    (∀ f', overwrite_metadata file (a, b, c) = .ok f' →
      f'.take 8 = file.take 8 ∧ (f'.drop 8).take 24 = pack3LE a b c ∧
      f'.drop 32 = file.drop 32 ∧ f'.length = max file.length 32) := by
  by_cases hm : file.take 4 = MAGIC_ZSTD_HEADER
  · by_cases hl8 : 8 ≤ file.length
    · have hlb : ((file.drop 4).take 4).length = 4 := by
        rw [List.length_take, List.length_drop]; omega
      by_cases hfl : leToNat ((file.drop 4).take 4) = METADATA_SIZE
      · have hok := overwrite_metadata_of_valid ⟨hm, hl8, hfl⟩ ha hb hc
        constructor
        · rw [hok]
          constructor
          · rintro ⟨msg, hmsg⟩
            simp at hmsg
          · rintro (h | ⟨_, hne⟩)
            · exact absurd hm h
            · exact absurd hfl hne
        · intro f' hf'
          rw [hok] at hf'
          injection hf' with hf
          subst hf
          have htake8 : (file.take 8).length = 8 := by
            rw [List.length_take]; omega
          refine ⟨?_, ?_, ?_, ?_⟩
          · rw [List.append_assoc, List.take_left' htake8]
          · rw [List.append_assoc, List.drop_left' htake8,
              List.take_left' (length_pack3LE a b c)]
          · have h32 : (file.take 8 ++ pack3LE a b c).length = 32 := by
              rw [List.length_append, htake8, length_pack3LE]
            rw [List.drop_left' h32]
          · rw [List.length_append, List.length_append, htake8,
              length_pack3LE, List.length_drop]
            omega
      · have hov : overwrite_metadata file (a, b, c) =
            .error (.formatError "Invalid metadata size") := by
          simp only [overwrite_metadata, hm, hlb, ne_eq, not_true_eq_false,
            if_false, reduceIte]
          rw [if_pos hfl]
        constructor
        · rw [hov]
          constructor
          · intro _
            exact Or.inr ⟨hl8, hfl⟩
          · intro _
            exact ⟨"Invalid metadata size", rfl⟩
        · intro f' hf'
          rw [hov] at hf'
          simp at hf'
    · have hlb : ((file.drop 4).take 4).length ≠ 4 := by
        rw [List.length_take, List.length_drop]; omega
      have hov : overwrite_metadata file (a, b, c) = .error .structError := by
        simp only [overwrite_metadata, hm, ne_eq, not_true_eq_false,
          if_false, reduceIte]
        rw [if_pos hlb]
      constructor
      · rw [hov]
        constructor
        · rintro ⟨msg, hmsg⟩
          simp at hmsg
        · rintro (h | ⟨h8, _⟩)
          · exact absurd hm h
          · exact absurd h8 hl8
      · intro f' hf'
        rw [hov] at hf'
        simp at hf'
  · have hov : overwrite_metadata file (a, b, c) =
        .error (.formatError "Not a valid skippable frame format.") := by
      simp only [overwrite_metadata, ne_eq]
      rw [if_pos hm]
    constructor
    · rw [hov]
      constructor
      · intro _
        exact Or.inl hm
      · intro _
        exact ⟨"Not a valid skippable frame format.", rfl⟩
    · intro f' hf'
      rw [hov] at hf'
      simp at hf'

/-- Witness for C9 amended at a fresh archive and the triple
(3, 4, 5). -/
theorem c9_amended_witness :
    (3:Nat) < 2 ^ 64 ∧ (4:Nat) < 2 ^ 64 ∧ (5:Nat) < 2 ^ 64 ∧
    (((∃ msg, overwrite_metadata init_metadata (3, 4, 5) = .error (.formatError msg)) ↔
      (init_metadata.take 4 ≠ MAGIC_ZSTD_HEADER ∨
        (8 ≤ init_metadata.length ∧
          leToNat ((init_metadata.drop 4).take 4) ≠ METADATA_SIZE))) ∧
    (∀ f', overwrite_metadata init_metadata (3, 4, 5) = .ok f' →
      f'.take 8 = init_metadata.take 8 ∧ (f'.drop 8).take 24 = pack3LE 3 4 5 ∧
      f'.drop 32 = init_metadata.drop 32 ∧
      f'.length = max init_metadata.length 32)) :=
  ⟨by norm_num, by norm_num, by norm_num,
   c9_amended init_metadata 3 4 5 (by norm_num) (by norm_num) (by norm_num)⟩

theorem utf8List_append (xs ys : List Char) :
    utf8List (xs ++ ys) = utf8List xs ++ utf8List ys := by
  induction xs with
  | nil => rfl
  | cons c cs ih => simp [utf8List, ih]

theorem utf8Bytes_append (s t : String) :
    utf8Bytes (s ++ t) = utf8Bytes s ++ utf8Bytes t := by
  simp [utf8Bytes, String.data_append, utf8List_append]

theorem string_length_zero_iff (s : String) : s.length = 0 ↔ s = "" := by
  cases s with
  | mk data =>
    constructor
    · intro h
      have hd : data = [] := List.length_eq_zero.mp h
      rw [hd]
    · intro h
      rw [h]
      rfl

/-- Concatenation of a list of strings. -/
def strConcat : List String → String
  | [] => ""
  | s :: rest => s ++ strConcat rest

/-- The transcript as the claim states it: the concatenation, in fetch
order, of exactly one `transcriptLine` per message whose body is
non-empty. -/
def transcriptSpec (messages : List Message) : String :=
  strConcat ((messages.filter fun m => m.content ≠ "").map transcriptLine)

theorem formatted_log_fold (messages : List Message) (init : String) :
    messages.foldl
      (fun log m => if m.content.length ≠ 0 then log ++ transcriptLine m else log)
      init = init ++ transcriptSpec messages := by
  induction messages generalizing init with
  | nil => simp [transcriptSpec, strConcat, String.append_empty]
  | cons m ms ih =>
    by_cases h : m.content = ""
    · have hlen : m.content.length = 0 := (string_length_zero_iff m.content).mpr h
      simp only [List.foldl_cons, hlen, ne_eq, not_true_eq_false, if_false, reduceIte, ih]
      have hfil : (List.filter (fun m => decide ¬m.content = "") (m :: ms))
          = List.filter (fun m => decide ¬m.content = "") ms := by
        rw [List.filter_cons]
        simp [h]
      simp only [transcriptSpec, hfil]
    · have hlen : m.content.length ≠ 0 := fun hh => h ((string_length_zero_iff m.content).mp hh)
      simp only [List.foldl_cons, hlen, ne_eq, not_false_eq_true, if_true, reduceIte, ih]
      have hfil : (List.filter (fun m => decide ¬m.content = "") (m :: ms))
          = m :: List.filter (fun m => decide ¬m.content = "") ms := by
        rw [List.filter_cons]
        simp [h]
      simp only [transcriptSpec, hfil, List.map_cons, strConcat]
      rw [String.append_assoc]

/-- C10: the encoded transcript of a batch is the concatenation, in
fetch order, of exactly one line per message with non-empty body; each
line's UTF-8 byte sequence is NUL, then the author display name in
angle brackets, then NUL, then the body, then a newline (sentinel 0x00
a single byte); and the message-count part of the commit update counts
all messages of the batch, empty-body ones included. -/
theorem c10_transcript_grammar (messages : List Message) (m : Message) :
    formatted_log messages = transcriptSpec messages ∧
    utf8Bytes (transcriptLine m) =
      [0, 60] ++ utf8Bytes m.author ++ [62, 0] ++ utf8Bytes m.content ++ [10] ∧
    (∀ cnt : Nat × Nat × Nat, (commitUpdate cnt messages).2.1 = cnt.2.1 + messages.length) := by
  refine ⟨?_, ?_, fun cnt => rfl⟩
  · rw [formatted_log, formatted_log_fold, String.empty_append]
  · rw [transcriptLine]
    rw [utf8Bytes_append, utf8Bytes_append, utf8Bytes_append, utf8Bytes_append]
    have h1 : utf8Bytes "\x00<" = [0, 60] := by decide
    have h2 : utf8Bytes ">\x00" = [62, 0] := by decide
    have h3 : utf8Bytes "\n" = [10] := by decide
    rw [h1, h2, h3]

/-- C6, evaluated at the failing input: for the batch holding the single
message (id 1, author "a", body "é"), the commit adds
`len(formatted_log)` = 7 (Python string length, i.e. characters) to the
uncompressed-size counter, while the byte length of the UTF-8 encoding
of the transcript that is compressed and appended is 8. -/
theorem c6_bytes_counter_divergence :
    (commitUpdate (0, 0, 0) [⟨1, "a", "é"⟩]).2.2 = 7 ∧
    (utf8Bytes (formatted_log [⟨1, "a", "é"⟩])).length = 8 ∧ (7:Nat) ≠ 8 := by
  refine ⟨by decide, by decide, by decide⟩

/-- The precondition of the monotonicity claim on a sequence of fetched
batches: every batch is non-empty and contains only messages with ids
strictly greater than the running cursor, the cursor advancing to the
batch's last id after each commit. -/
def validFetch : Nat → List (List Message) → Bool
  | _, [] => true
  | l, b :: bs =>
    (!b.isEmpty) && b.all (fun m => l < m.id) && validFetch (lastId b) bs

theorem lastId_lt {l : Nat} {b : List Message} (hne : b ≠ [])
    (hids : ∀ m ∈ b, l < m.id) : l < lastId b := by
  rw [lastId, List.getLast?_eq_getLast b hne]
  exact hids _ (List.getLast_mem hne)

theorem scanl_head (f : (Nat × Nat × Nat) → List Message → (Nat × Nat × Nat))
    (i : Nat × Nat × Nat) (l : List (List Message)) :
    (List.scanl f i l).head? = some i := by
  cases l <;> simp [List.scanl_cons, List.scanl_nil]

/-- C5: across any sequence of commits, under the precondition that the
fetch returns only non-empty batches of messages with ids strictly
greater than the running cursor, the committed `last_read_message` and
`total_messages_read` counters are non-decreasing and strictly increase
together at every commit. -/
theorem c5_monotonicity (init : Nat × Nat × Nat) (batches : List (List Message))
    (h : validFetch init.1 batches = true) :
    List.Chain'
      (fun x y : Nat × Nat × Nat =>
        x.1 ≤ y.1 ∧ x.2.1 ≤ y.2.1 ∧ x.1 < y.1 ∧ x.2.1 < y.2.1)
      (List.scanl commitUpdate init batches) := by
  induction batches generalizing init with
  | nil => simp [List.scanl_nil]
  | cons b bs ih =>
    rw [List.scanl_cons]
    rw [validFetch, Bool.and_eq_true, Bool.and_eq_true] at h
    obtain ⟨⟨hne, hall⟩, hrest⟩ := h
    have hne' : b ≠ [] := by
      simpa [List.isEmpty_iff] using hne
    have hids : ∀ m ∈ b, init.1 < m.id := by
      intro m hm
      have := List.all_eq_true.mp hall m hm
      simpa using this
    have hlt : init.1 < lastId b := lastId_lt hne' hids
    have hblen : 0 < b.length := List.length_pos.mpr hne'
    simp only [List.singleton_append]
    rw [List.chain'_cons']
    constructor
    · intro y hy
      rw [scanl_head] at hy
      cases hy
      refine ⟨le_of_lt hlt, ?_, hlt, ?_⟩
      · simp only [commitUpdate]
        omega
      · simp only [commitUpdate]
        omega
    · exact ih (commitUpdate init b) hrest

/-- Witness for C5 on two singleton batches with ids 1 and 2 starting
from zero counters. -/
theorem c5_witness :
    validFetch (0, 0, 0).1
        [[⟨1, "a", "hi"⟩], [⟨2, "b", "yo"⟩]] = true ∧
    List.Chain'
      (fun x y : Nat × Nat × Nat =>
        x.1 ≤ y.1 ∧ x.2.1 ≤ y.2.1 ∧ x.1 < y.1 ∧ x.2.1 < y.2.1)
      (List.scanl commitUpdate (0, 0, 0)
        [[⟨1, "a", "hi"⟩], [⟨2, "b", "yo"⟩]]) :=
  ⟨by decide,
   c5_monotonicity (0, 0, 0) [[⟨1, "a", "hi"⟩], [⟨2, "b", "yo"⟩]] (by decide)⟩

/-- The shape of a correct commit trace as the claim describes it,
threading the cursor and the two running totals: each commit handles
exactly the batch fetched at the current cursor, consists of a metadata
overwrite carrying the updated counters followed immediately by the
append of that batch's compressed chunk (in this order), and advances
cursor and totals for the remainder of the trace. -/
inductive CommitSeq (compress : List Nat → List Nat)
    (fetchFn : Option Nat → Nat → List Message) (batchLimit : Nat) :
    Option Nat → Nat → Nat → List FileOp → Prop where
  | nil (cur : Option Nat) (count bytes : Nat) :
      CommitSeq compress fetchFn batchLimit cur count bytes []
  | commit (cur : Option Nat) (count bytes : Nat) (msgs : List Message)
      (hmsgs : msgs = fetchFn cur batchLimit) (h : msgs ≠ [])
      (rest : List FileOp)
      (hrest : CommitSeq compress fetchFn batchLimit
        (some (lastId msgs)) (count + msgs.length)
        (bytes + (formatted_log msgs).length) rest) :
      CommitSeq compress fetchFn batchLimit cur count bytes
        (FileOp.overwriteMeta (lastId msgs) (count + msgs.length)
            (bytes + (formatted_log msgs).length)
          :: FileOp.appendChunk (compress (utf8Bytes (formatted_log msgs)))
          :: rest)

/-- C1: every trace of file operations produced by a session loop run is
a sequence of commits, one per non-empty fetched batch, each commit
first overwriting the metadata frame with the counters
`last_id' = id of the batch's last message`,
`count' = count + len(batch)`, `bytes' = bytes + len(transcript)`, and
only afterwards appending the batch's compressed chunk; a metadata
update never follows its batch's append. -/
theorem c1_commit_order (compress : List Nat → List Nat)
    (fetchFn : Option Nat → Nat → List Message) (batchLimit fuel : Nat)
    (s : LoopState) :
    CommitSeq compress fetchFn batchLimit s.last_read_message
      s.total_messages_read s.uncompressed_size
      (sessionLoop compress fetchFn batchLimit fuel s).2 := by
  induction fuel generalizing s with
  | zero => exact .nil _ _ _
  | succ fuel ih =>
    simp only [sessionLoop]
    split
    · exact .nil _ _ _
    next h =>
      split
      · exact .nil _ _ _
      next f1 heq =>
        split
        · exact .commit _ _ _ _ rfl h _ (.nil _ _ _)
        · split
          · exact .commit _ _ _ _ rfl h _ (.nil _ _ _)
          · simp only [List.cons_append, List.nil_append]
            exact .commit _ _ _ _ rfl h _
              (ih { file := f1 ++
                      compress (utf8Bytes (formatted_log
                        (fetchFn s.last_read_message batchLimit))),
                    last_read_message :=
                      some (lastId (fetchFn s.last_read_message batchLimit)),
                    total_messages_read := s.total_messages_read +
                      (fetchFn s.last_read_message batchLimit).length,
                    uncompressed_size := s.uncompressed_size +
                      (formatted_log (fetchFn s.last_read_message batchLimit)).length,
                    shutdown_requested := s.shutdown_requested })

/-- The loop state after committing the batch `msgs`, `f1` being the file
produced by the metadata overwrite: the appended file, the advanced
cursor, and the updated totals (src/main.py lines 176-187). -/
def commitState (compress : List Nat → List Nat) (s : LoopState)
    (msgs : List Message) (f1 : List Nat) : LoopState :=
  { file := f1 ++ compress (utf8Bytes (formatted_log msgs)),
    last_read_message := some (lastId msgs),
    total_messages_read := s.total_messages_read + msgs.length,
    uncompressed_size := s.uncompressed_size + (formatted_log msgs).length,
    shutdown_requested := s.shutdown_requested }

/-- The two file operations of one commit: the metadata overwrite with
the updated counters, then the chunk append. -/
def commitOps (compress : List Nat → List Nat) (s : LoopState)
    (msgs : List Message) : List FileOp :=
  [FileOp.overwriteMeta (lastId msgs) (s.total_messages_read + msgs.length)
     (s.uncompressed_size + (formatted_log msgs).length),
   FileOp.appendChunk (compress (utf8Bytes (formatted_log msgs)))]

/-- C4: starting from a state loaded from the archive, the fetch loop
ends this iteration exactly when the fetch is empty (no commit at all,
the state and in particular the file stay untouched — the idempotent
resume), or after a commit when a deferred shutdown was requested or the
batch was shorter than `batch_size`; in every other case it commits and
loops. -/
theorem c4_loop_exit (compress : List Nat → List Nat)
    (fetchFn : Option Nat → Nat → List Message) (batchLimit fuel : Nat)
    (file : List Nat) (s : LoopState) (hload : loadState file = .ok s) :
    (fetchFn s.last_read_message batchLimit = [] →
      sessionLoop compress fetchFn batchLimit (fuel + 1) s = (.finished s, []) ∧
      s.file = file) ∧
    (fetchFn s.last_read_message batchLimit ≠ [] → ∀ f1 : List Nat,
      overwrite_metadata s.file
          (lastId (fetchFn s.last_read_message batchLimit),
           s.total_messages_read + (fetchFn s.last_read_message batchLimit).length,
           s.uncompressed_size +
             (formatted_log (fetchFn s.last_read_message batchLimit)).length) =
        .ok f1 →
      (s.shutdown_requested = true →
        sessionLoop compress fetchFn batchLimit (fuel + 1) s =
          (.shutdown
            (commitState compress s (fetchFn s.last_read_message batchLimit) f1),
           commitOps compress s (fetchFn s.last_read_message batchLimit))) ∧
      (s.shutdown_requested = false →
        (fetchFn s.last_read_message batchLimit).length < batchLimit →
        sessionLoop compress fetchFn batchLimit (fuel + 1) s =
          (.finished
            (commitState compress s (fetchFn s.last_read_message batchLimit) f1),
           commitOps compress s (fetchFn s.last_read_message batchLimit))) ∧
      (s.shutdown_requested = false →
        ¬ (fetchFn s.last_read_message batchLimit).length < batchLimit →
        sessionLoop compress fetchFn batchLimit (fuel + 1) s =
          ((sessionLoop compress fetchFn batchLimit fuel
              (commitState compress s (fetchFn s.last_read_message batchLimit) f1)).1,
           commitOps compress s (fetchFn s.last_read_message batchLimit) ++
             (sessionLoop compress fetchFn batchLimit fuel
               (commitState compress s (fetchFn s.last_read_message batchLimit) f1)).2))) := by
  have hsfile : s.file = file := by
    unfold loadState at hload
    rcases hread : read_metadata file with e | ⟨l, c, b⟩
    · rw [hread] at hload
      exact absurd hload (by simp)
    · rw [hread] at hload
      injection hload with hh
      subst hh
      rfl
  constructor
  · intro hempty
    refine ⟨?_, hsfile⟩
    simp only [sessionLoop]
    rw [if_pos hempty]
  · intro h f1 hov
    refine ⟨?_, ?_, ?_⟩
    · intro hshut
      simp only [sessionLoop]
      rw [if_neg h, hov]
      simp [commitState, commitOps, hshut]
    · intro hshut hshort
      simp only [sessionLoop]
      rw [if_neg h, hov]
      simp [commitState, commitOps, hshut, hshort]
    · intro hshut hlong
      simp only [sessionLoop]
      rw [if_neg h, hov]
      simp [commitState, commitOps, hshut, hlong]

/-- The state loaded from a freshly initialized archive. -/
def loadedFreshState : LoopState :=
  { file := init_metadata, last_read_message := none,
    total_messages_read := 0, uncompressed_size := 0,
    shutdown_requested := false }

/-- A history source with no messages at all. -/
def emptyFetch : Option Nat → Nat → List Message := fun _ _ => []

/-- Witness for C4: resuming on a fresh archive with no upstream
messages loads the state, performs zero commits, and leaves the file
unchanged. -/
theorem c4_witness :
    loadState init_metadata = .ok loadedFreshState ∧
    ((emptyFetch loadedFreshState.last_read_message 100 = [] →
        sessionLoop (fun l => l) emptyFetch 100 (5 + 1) loadedFreshState =
          (.finished loadedFreshState, []) ∧
        loadedFreshState.file = init_metadata) ∧
     (emptyFetch loadedFreshState.last_read_message 100 ≠ [] → ∀ f1 : List Nat,
        overwrite_metadata loadedFreshState.file
            (lastId (emptyFetch loadedFreshState.last_read_message 100),
             loadedFreshState.total_messages_read +
               (emptyFetch loadedFreshState.last_read_message 100).length,
             loadedFreshState.uncompressed_size +
               (formatted_log
                 (emptyFetch loadedFreshState.last_read_message 100)).length) =
          .ok f1 →
        (loadedFreshState.shutdown_requested = true →
          sessionLoop (fun l => l) emptyFetch 100 (5 + 1) loadedFreshState =
            (.shutdown
              (commitState (fun l => l) loadedFreshState
                (emptyFetch loadedFreshState.last_read_message 100) f1),
             commitOps (fun l => l) loadedFreshState
               (emptyFetch loadedFreshState.last_read_message 100))) ∧
        (loadedFreshState.shutdown_requested = false →
          (emptyFetch loadedFreshState.last_read_message 100).length < 100 →
          sessionLoop (fun l => l) emptyFetch 100 (5 + 1) loadedFreshState =
            (.finished
              (commitState (fun l => l) loadedFreshState
                (emptyFetch loadedFreshState.last_read_message 100) f1),
             commitOps (fun l => l) loadedFreshState
               (emptyFetch loadedFreshState.last_read_message 100))) ∧
        (loadedFreshState.shutdown_requested = false →
          ¬ (emptyFetch loadedFreshState.last_read_message 100).length < 100 →
          sessionLoop (fun l => l) emptyFetch 100 (5 + 1) loadedFreshState =
            ((sessionLoop (fun l => l) emptyFetch 100 5
                (commitState (fun l => l) loadedFreshState
                  (emptyFetch loadedFreshState.last_read_message 100) f1)).1,
             commitOps (fun l => l) loadedFreshState
                 (emptyFetch loadedFreshState.last_read_message 100) ++
               (sessionLoop (fun l => l) emptyFetch 100 5
                 (commitState (fun l => l) loadedFreshState
                   (emptyFetch loadedFreshState.last_read_message 100) f1)).2)))) :=
  ⟨rfl, c4_loop_exit (fun l => l) emptyFetch 100 5 init_metadata
    loadedFreshState rfl⟩

/-- C3: for a signal delivered after any number `k` of atomic steps of a
commit, if the critical-section flag is false at that point the process
exits immediately with status 0 (before the first step this leaves the
file untouched, after the commit it leaves it fully committed); if the
flag is true the handler only sets the shutdown flag, both commit steps
complete, and the process exits with status 0 at the post-commit check;
in every case the final file is either the original or the fully
committed one — never the metadata overwrite without its append. -/
theorem c3_signal_deferral (new_data : Nat × Nat × Nat) (chunk : List Nat)
    (s : ProcState) (k : Nat) (hex : s.exited = none)
    (hcrit : s.in_critical_section = false) (hsd : s.shutdown_event = false)
    (f : List Nat) (hov : overwrite_metadata s.file new_data = .ok f) :
    (criticalAt new_data chunk k s = false →
      (run_commit_sig new_data chunk k s).exited = some 0 ∧
      ((run_commit_sig new_data chunk k s).file = s.file ∨
       (run_commit_sig new_data chunk k s).file = f ++ chunk)) ∧
    (criticalAt new_data chunk k s = true →
      (run_commit_sig new_data chunk k s).file = f ++ chunk ∧
      (run_commit_sig new_data chunk k s).exited = some 0) ∧
    ((run_commit_sig new_data chunk k s).file = s.file ∨
     (run_commit_sig new_data chunk k s).file = f ++ chunk) ∧
    (run_commit_sig new_data chunk k s).exited = some 0 := by
  match k with
  | 0 =>
    refine ⟨?_, ?_, ?_, ?_⟩ <;>
      simp [run_commit_sig, criticalAt, commit_steps, stepRun, handle_signal,
        hex, hcrit, hsd, hov]
  | 1 =>
    refine ⟨?_, ?_, ?_, ?_⟩ <;>
      simp [run_commit_sig, criticalAt, commit_steps, stepRun, handle_signal,
        hex, hcrit, hsd, hov]
  | 2 =>
    refine ⟨?_, ?_, ?_, ?_⟩ <;>
      simp [run_commit_sig, criticalAt, commit_steps, stepRun, handle_signal,
        hex, hcrit, hsd, hov]
  | 3 =>
    refine ⟨?_, ?_, ?_, ?_⟩ <;>
      simp [run_commit_sig, criticalAt, commit_steps, stepRun, handle_signal,
        hex, hcrit, hsd, hov]
  | 4 =>
    refine ⟨?_, ?_, ?_, ?_⟩ <;>
      simp [run_commit_sig, criticalAt, commit_steps, stepRun, handle_signal,
        hex, hcrit, hsd, hov]
  | n + 5 =>
    refine ⟨?_, ?_, ?_, ?_⟩ <;>
      simp [run_commit_sig, criticalAt, commit_steps, stepRun, handle_signal,
        hex, hcrit, hsd, hov, List.take_succ_cons, List.take_nil,
        List.drop_succ_cons, List.drop_nil]

/-- Witness for C3: a signal delivered right after the metadata
overwrite (k = 2) of a commit on a fresh archive defers, the commit
completes, and the process exits 0. -/
theorem c3_witness :
    (⟨init_metadata, false, false, none⟩ : ProcState).exited = none ∧
    (⟨init_metadata, false, false, none⟩ : ProcState).in_critical_section = false ∧
    (⟨init_metadata, false, false, none⟩ : ProcState).shutdown_event = false ∧
    overwrite_metadata (⟨init_metadata, false, false, none⟩ : ProcState).file
        (1, 1, 7) =
      .ok (init_metadata.take 8 ++ pack3LE 1 1 7 ++ init_metadata.drop 32) ∧
    ((criticalAt (1, 1, 7) [1, 2, 3] 2 ⟨init_metadata, false, false, none⟩ = false →
        (run_commit_sig (1, 1, 7) [1, 2, 3] 2
          ⟨init_metadata, false, false, none⟩).exited = some 0 ∧
        ((run_commit_sig (1, 1, 7) [1, 2, 3] 2
            ⟨init_metadata, false, false, none⟩).file =
          (⟨init_metadata, false, false, none⟩ : ProcState).file ∨
         (run_commit_sig (1, 1, 7) [1, 2, 3] 2
            ⟨init_metadata, false, false, none⟩).file =
          (init_metadata.take 8 ++ pack3LE 1 1 7 ++ init_metadata.drop 32) ++
            [1, 2, 3])) ∧
     (criticalAt (1, 1, 7) [1, 2, 3] 2 ⟨init_metadata, false, false, none⟩ = true →
        (run_commit_sig (1, 1, 7) [1, 2, 3] 2
          ⟨init_metadata, false, false, none⟩).file =
          (init_metadata.take 8 ++ pack3LE 1 1 7 ++ init_metadata.drop 32) ++
            [1, 2, 3] ∧
        (run_commit_sig (1, 1, 7) [1, 2, 3] 2
          ⟨init_metadata, false, false, none⟩).exited = some 0) ∧
     ((run_commit_sig (1, 1, 7) [1, 2, 3] 2
          ⟨init_metadata, false, false, none⟩).file =
        (⟨init_metadata, false, false, none⟩ : ProcState).file ∨
      (run_commit_sig (1, 1, 7) [1, 2, 3] 2
          ⟨init_metadata, false, false, none⟩).file =
        (init_metadata.take 8 ++ pack3LE 1 1 7 ++ init_metadata.drop 32) ++
          [1, 2, 3]) ∧
     (run_commit_sig (1, 1, 7) [1, 2, 3] 2
        ⟨init_metadata, false, false, none⟩).exited = some 0) :=
  ⟨rfl, rfl, rfl, rfl,
   c3_signal_deferral (1, 1, 7) [1, 2, 3] ⟨init_metadata, false, false, none⟩ 2
     rfl rfl rfl _ rfl⟩
